import Mathlib

/-!
Shallow embedding of `iNaturalist_Photo_Scraper.py`.

The program has two stages: a CSV loader (`get_observation_data_from_csv`)
and a photo downloader (`download_inaturalist_photos_api`).  We embed the
loader as a pure function on already-parsed CSV rows (lists of cell strings;
the `csv` module's quoting/BOM handling sits below this model), and the
downloader as a function producing the list of observable side effects
(HTTP requests, directory creations, file writes, sleeps, log lines) given
a network environment that fixes every HTTP response.  Python string
primitives used by the code (`strip`, `lower`, `split`, `isdigit`,
`startswith`, `replace`, `re.sub` over a fixed character class) are embedded
as executable functions on `List Char`.
-/

set_option linter.unusedVariables false

/-- Drop the characters satisfying `p` from both ends of a character list
(the common core of Python `str.strip()` and `str.strip('/')`). -/
def stripBy (p : Char → Bool) (cs : List Char) : List Char :=
  ((cs.dropWhile p).reverse.dropWhile p).reverse

/-- Python `s.strip()`: remove whitespace from both ends. -/
def pyStrip (s : String) : String := ⟨stripBy Char.isWhitespace s.data⟩

/-- Python `s.strip('/')`: remove `/` characters from both ends. -/
def pyStripSlash (s : String) : String := ⟨stripBy (fun c => c = '/') s.data⟩

/-- Python `s.lower()` (ASCII case folding, which is all the header matching needs). -/
def pyLower (s : String) : String := ⟨s.data.map Char.toLower⟩

/-- Python `s.startswith(p)`. -/
def pyStartsWith (s p : String) : Bool := p.data.isPrefixOf s.data

/-- Python `s.split('/')` on the character level: `[] ↦ [[]]`, separators kept
as empty segments, exactly as Python's `str.split` with an explicit separator. -/
def splitOnSlash (cs : List Char) : List (List Char) :=
  cs.foldr (fun x acc =>
    match acc with
    | [] => [[x]]
    | a :: rest => if x = '/' then [] :: a :: rest else (x :: a) :: rest) [[]]

/-- `url.strip('/').split('/')[-1]` from the source (line 83): the trailing
path segment of the URL after stripping slashes at both ends. -/
def lastSegment (url : String) : String :=
  ⟨(splitOnSlash (pyStripSlash url).data).getLastD []⟩

/-- Python `s.isdigit()`: `True` exactly when `s` is non-empty and every
character is a digit (`"".isdigit()` is `False`). -/
def pyIsDigit (s : String) : Bool := !s.data.isEmpty && s.data.all Char.isDigit

/-- The character class removed by `re.sub(r'[\\/*?:"<>|]', "", ...)`. -/
def badChars : List Char := ['\\', '/', '*', '?', ':', '"', '<', '>', '|']

/-- `re.sub(r'[\\/*?:"<>|]', "", name).replace(' ', '_')` on the character
level: first delete the illegal characters, then map spaces to underscores. -/
def sanitizeChars (cs : List Char) : List Char :=
  (cs.filter (fun c => !badChars.contains c)).map (fun c => if c = ' ' then '_' else c)

/-- The scientific-name sanitization from line 90 of the source. -/
def sanitize (s : String) : String := ⟨sanitizeChars s.data⟩

/-- Python `s.replace(pat, rep)` for a non-empty `pat`: replace every
non-overlapping occurrence, scanning left to right.  The `Nat` argument is
fuel bounding the number of scan steps; each step consumes at least one list
element, so calling with fuel = list length (as `pyReplace` does) is always
enough, and exhausted fuel returns the remainder unchanged.  The `pat ≠ []`
guard mirrors that the source only ever calls this with the non-empty
pattern `'square'`. -/
def replaceGo (pat rep : List Char) : Nat → List Char → List Char
  | _, [] => []
  | 0, l => l
  | fuel + 1, c :: cs =>
    if pat ≠ [] ∧ pat.isPrefixOf (c :: cs) then
      rep ++ replaceGo pat rep fuel (List.drop (pat.length - 1) cs)
    else
      c :: replaceGo pat rep fuel cs

/-- Python `s.replace(pat, rep)` lifted to `String`. -/
def pyReplace (s pat rep : String) : String :=
  ⟨replaceGo pat.data rep.data s.data.length s.data⟩

/-- `pat` occurs as a contiguous substring of the list (used to state the
pass-through property of `replace` when the pattern is absent). -/
def hasSub (pat : List Char) : List Char → Bool
  | [] => pat.isEmpty
  | c :: cs => pat.isPrefixOf (c :: cs) || hasSub pat cs

/-- One row extracted by the loader: the trimmed `url` and `scientific_name`
cells of a qualifying CSV data row. -/
structure ObservationRecord where
  url : String
  scientific_name : String
deriving DecidableEq, Repr

/-- The loader's failure signals (the Python function prints the message and
returns `None`; the printed message distinguishes exactly these cases and, for
a missing column, names the first missing column). -/
inductive LoadErr where
  | emptyFile
  | missingColumn (col : String)
deriving DecidableEq, Repr

/-- Header-cell normalization from line 26: `h.strip().lower()`. -/
def normCell (h : String) : String := pyLower (pyStrip h)

/-- `get_observation_data_from_csv` (lines 14-59) on already-parsed rows.
`header.index` is Python's first-match search, embedded as `findIdx?`; the
`url` column is looked up first, so when both columns are missing the error
names `url`.  A data row is kept when it is non-empty, long enough to reach
both column positions, its trimmed url starts with `http`, and its trimmed
scientific name is non-empty; `getD` reads a cell (always in bounds thanks to
the length guard, mirroring `row[i]`). -/
def get_observation_data_from_csv (rows : List (List String)) :
    Except LoadErr (List ObservationRecord) :=
  match rows with
  | [] => .error .emptyFile
  | headerRow :: dataRows =>
    let header := headerRow.map normCell
    match header.findIdx? (fun h => h == "url") with
    | none => .error (.missingColumn "url")
    | some url_col_index =>
      match header.findIdx? (fun h => h == "scientific_name") with
      | none => .error (.missingColumn "scientific_name")
      | some name_col_index =>
        .ok (dataRows.filterMap (fun row =>
          if row ≠ [] ∧ row.length > max url_col_index name_col_index then
            let url := pyStrip (row.getD url_col_index "")
            let scientific_name := pyStrip (row.getD name_col_index "")
            if pyStartsWith url "http" ∧ scientific_name ≠ "" then
              some { url := url, scientific_name := scientific_name }
            else none
          else none))

/-- The extraction described by the specification, written from its words:
keep exactly the data rows that have enough cells to reach both column
positions and whose trimmed url starts with `http` and whose trimmed
scientific name is non-empty, as records of the trimmed values, in row
order. -/
def claimExtract (u n : Nat) (dataRows : List (List String)) : List ObservationRecord :=
  dataRows.filterMap (fun row =>
    if u < row.length ∧ n < row.length then
      let url := pyStrip (row.getD u "")
      let nm := pyStrip (row.getD n "")
      if pyStartsWith url "http" ∧ nm ≠ "" then
        some { url := url, scientific_name := nm }
      else none
    else none)

/-- One photo entry of the API response (the code reads only its `url` field,
line 122). -/
structure PhotoEntry where
  url : String
deriving DecidableEq, Repr

/-- The first element of the API response's `results` array, as far as the
code inspects it: an optional `photos` list (`none` models a missing
`photos` key, line 114). -/
structure ObsDetails where
  photos : Option (List PhotoEntry)
deriving DecidableEq, Repr

/-- The decoded JSON body of the observation request, as far as the code
inspects it: an optional `results` array (`none` models both a falsy body
and a missing `results` key, which line 108 treats identically). -/
structure ApiData where
  results : Option (List ObsDetails)
deriving DecidableEq, Repr

/-- Outcome of `requests.get(api_url, headers)` followed by
`raise_for_status()` and `response.json()`: a network-layer error
(`RequestException`), a non-2xx status (`HTTPError`), an unparseable body
(`JSONDecodeError`), or a decoded body. -/
inductive ObsFetch where
  | netErr
  | httpErr
  | badJson
  | ok (data : ApiData)
deriving DecidableEq, Repr

/-- Outcome of `requests.get(img_url)` followed by `raise_for_status()`:
network-layer error, non-2xx status, or 2xx with the response body. -/
inductive PhotoFetch where
  | netErr
  | httpErr
  | ok (content : String)
deriving DecidableEq, Repr

/-- The network environment: the response each URL would produce.  The run
is single-threaded and sequential, so a fixed response function fully
determines the trace. -/
structure Env where
  obsResp : String → ObsFetch
  photoResp : String → PhotoFetch

/-- Observable side effects of the downloader, in program order.
`ensureDir` is the `if not os.path.exists(p): os.makedirs(p)` idiom (lines
72-73 and 96-97); `write` is `open(filepath,'wb').write(...)`; paths are
segment lists so that placement under the base directory is syntactic;
`log` carries the error/warning prints the claims talk about (routine
progress prints are not modelled). -/
inductive Event where
  | ensureDir (path : List String)
  | getObs (url : String)
  | getPhoto (url : String)
  | write (path : List String) (content : String)
  | sleep
  | log (msg : String)
deriving DecidableEq, Repr

/-- The error kinds distinguished by the record-level `except` clauses
(lines 135-142). -/
inductive ErrKind where
  | http
  | net
  | parse
  | other
deriving DecidableEq, Repr

/-- The log line printed by the record-level handler of each error kind. -/
def handlerLog (url : String) : ErrKind → Event
  | .http => .log ("HTTP Error for " ++ url)
  | .net => .log ("Network error for " ++ url)
  | .parse => .log ("Could not parse API response for " ++ url)
  | .other => .log ("An unexpected error occurred for " ++ url)

/-- `img_url = photo['url'].replace('square', 'large')` (line 122). -/
def imgUrlOf (p : PhotoEntry) : String := pyReplace p.url "square" "large"

/-- `api_url = f"https://api.inaturalist.org/v1/observations/{observation_id}"`
(line 101). -/
def apiUrlOf (oid : String) : String :=
  "https://api.inaturalist.org/v1/observations/" ++ oid

/-- The species folder name (lines 90-92): the sanitized scientific name, or
the fallback `observation_<id>` when sanitization yields the empty string. -/
def speciesFolderName (obs : ObservationRecord) : String :=
  if sanitize obs.scientific_name = "" then
    "observation_" ++ lastSegment obs.url
  else sanitize obs.scientific_name

/-- Whether a photo request came back 2xx (so that `raise_for_status()`
passes). -/
def PhotoFetch.isOk : PhotoFetch → Bool
  | .ok _ => true
  | _ => false

/-- `filename = f"{observation_id}_{i+1}.jpg"` (line 123). -/
def photoFilename (oid : String) (idx : Nat) : String :=
  oid ++ "_" ++ toString idx ++ ".jpg"

/-- The `for i, photo in enumerate(photos)` loop (lines 121-131), called with
index argument `i + 1` of the first photo (so `1` at the top).  Each photo is
fetched at its transformed URL; on 2xx the body is written to
`folder/<oid>_<index>.jpg` and the loop continues; `raise_for_status()` on a
non-2xx or a network error raises out of the loop, which the second
component reports as `some` error kind so that `processRecord` can append
the record-level handler's log (no further photo of the record is touched). -/
def photoLoop (env : Env) (folder : List String) (oid : String) :
    List PhotoEntry → Nat → List Event × Option ErrKind
  | [], _ => ([], none)
  | p :: rest, i =>
    match env.photoResp (imgUrlOf p) with
    | .ok content =>
      let r := photoLoop env folder oid rest (i + 1)
      (Event.getPhoto (imgUrlOf p) ::
        Event.write (folder ++ [photoFilename oid i]) content :: r.1, r.2)
    | .httpErr => ([Event.getPhoto (imgUrlOf p)], some .http)
    | .netErr => ([Event.getPhoto (imgUrlOf p)], some .net)

/-- The body of the per-record `for obs in observation_data` iteration
(lines 78-142): derive the observation id and skip with a warning unless it
is all digits; sanitize the name (falling back to `observation_<id>`);
ensure the species folder; issue the API request; on error or empty/missing
`results`/`photos` log and skip; otherwise run the photo loop and, if it
finished without raising, sleep; if it raised, the record-level handler
logs instead (and the `time.sleep(1)` on line 133 is never reached). -/
def processRecord (env : Env) (base : String) (obs : ObservationRecord) : List Event :=
  if ¬ pyIsDigit (lastSegment obs.url) then
    [Event.log ("Skipping invalid URL format: " ++ obs.url)]
  else
    Event.ensureDir [base, speciesFolderName obs] ::
    Event.getObs (apiUrlOf (lastSegment obs.url)) ::
    match env.obsResp (apiUrlOf (lastSegment obs.url)) with
    | .netErr => [handlerLog obs.url .net]
    | .httpErr => [handlerLog obs.url .http]
    | .badJson => [handlerLog obs.url .parse]
    | .ok data =>
      match data.results with
      | none => [Event.log ("No data returned from API for observation " ++ lastSegment obs.url)]
      | some [] => [Event.log ("No data returned from API for observation " ++ lastSegment obs.url)]
      | some (details :: _) =>
        match details.photos with
        | none => [Event.log ("No photos found for observation " ++ lastSegment obs.url)]
        | some [] => [Event.log ("No photos found for observation " ++ lastSegment obs.url)]
        | some (q :: qs) =>
          let r := photoLoop env [base, speciesFolderName obs] (lastSegment obs.url) (q :: qs) 1
          r.1 ++ (match r.2 with
                  | none => [Event.sleep]
                  | some k => [handlerLog obs.url k])

/-- The record loop: records are processed independently in sequence, each
contributing its events. -/
def recordsEvents (env : Env) (base : String) (recs : List ObservationRecord) : List Event :=
  recs.flatMap (processRecord env base)

/-- `download_inaturalist_photos_api` (lines 62-144): bail out on an empty
record list; otherwise ensure the base directory once, process every record,
and emit the final completion notice. -/
def download_inaturalist_photos_api (env : Env) (recs : List ObservationRecord)
    (base : String) : List Event :=
  if recs = [] then [Event.log "No valid data was found in the CSV to process."]
  else
    Event.ensureDir [base] :: recordsEvents env base recs ++
      [Event.log "Download process complete!"]

/-- The main block (lines 148-158): load the CSV and run the downloader only
when the loader returned a non-empty record list (`if obs_data:`). -/
def mainRun (env : Env) (base : String) (rows : List (List String)) : List Event :=
  match get_observation_data_from_csv rows with
  | .error _ => []
  | .ok recs => if recs = [] then [] else download_inaturalist_photos_api env recs base

/-- The write events of a trace, keeping program order. -/
def writesOf (evs : List Event) : List (List String × String) :=
  evs.filterMap (fun e => match e with | .write p c => some (p, c) | _ => none)

/-- The paths of the write events of a trace, in program order. -/
def writePaths (evs : List Event) : List (List String) :=
  (writesOf evs).map Prod.fst

/-- Recognizes the inter-record delay event. -/
def isSleep : Event → Bool
  | .sleep => true
  | _ => false

/-- How many times the trace sleeps. -/
def countSleep (evs : List Event) : Nat := (evs.filter isSleep).length

/-! Concrete fixtures used by the witness and counterexample theorems:
a two-photo observation `77` under three photo-network behaviors, and
single-photo observations `7` and `8` for path questions. -/

def photoSq1 : PhotoEntry := ⟨"http://p/square/1.jpg"⟩

def photoSq2 : PhotoEntry := ⟨"http://p/square/2.jpg"⟩

def apiDataTwo : ApiData := ⟨some [⟨some [photoSq1, photoSq2]⟩]⟩

def recObs77 : ObservationRecord :=
  { url := "http://x/obs/77", scientific_name := "Canis lupus" }

/-- Both photos of observation 77 download fine. -/
def envAllOk : Env where
  obsResp := fun u =>
    if u = "https://api.inaturalist.org/v1/observations/77" then .ok apiDataTwo else .netErr
  photoResp := fun u =>
    if u = "http://p/large/1.jpg" then .ok "A"
    else if u = "http://p/large/2.jpg" then .ok "B"
    else .httpErr

/-- The first photo of observation 77 answers non-2xx, the second would
succeed. -/
def envFirstPhotoFails : Env where
  obsResp := fun u =>
    if u = "https://api.inaturalist.org/v1/observations/77" then .ok apiDataTwo else .netErr
  photoResp := fun u => if u = "http://p/large/2.jpg" then .ok "B" else .httpErr

/-- The first photo of observation 77 succeeds, the second answers non-2xx. -/
def envSecondPhotoFails : Env where
  obsResp := fun u =>
    if u = "https://api.inaturalist.org/v1/observations/77" then .ok apiDataTwo else .netErr
  photoResp := fun u => if u = "http://p/large/1.jpg" then .ok "A" else .httpErr

def photoSqD : PhotoEntry := ⟨"http://p/square/d.jpg"⟩

/-- Observations 7 and 8 each have one photo and every photo request
succeeds. -/
def envTwoIds : Env where
  obsResp := fun u =>
    if u = "https://api.inaturalist.org/v1/observations/7" then .ok ⟨some [⟨some [photoSqD]⟩]⟩
    else if u = "https://api.inaturalist.org/v1/observations/8" then .ok ⟨some [⟨some [photoSqD]⟩]⟩
    else .netErr
  photoResp := fun _ => .ok "IMG"

def recDupA : ObservationRecord := { url := "http://a/7", scientific_name := "X" }

def recDupB : ObservationRecord := { url := "http://b/7", scientific_name := "X" }

def recId8 : ObservationRecord := { url := "http://a/8", scientific_name := "Y" }

example : pyIsDigit "12345" = true := by decide
example : pyIsDigit "" = false := by decide
example : pyIsDigit "12a" = false := by decide
example : lastSegment "https://www.inaturalist.org/observations/1234/" = "1234" := by decide
example : lastSegment "https://x/obs/abc" = "abc" := by decide
example : sanitize "Canis lupus?" = "Canis_lupus" := by decide
example : pyReplace "https://s/square/p.jpg" "square" "large" = "https://s/large/p.jpg" := by decide
example : pyReplace "nomatch" "square" "large" = "nomatch" := by decide
example :
    get_observation_data_from_csv
      [[" URL ", "Scientific_Name"], ["http://a/1", " Canis lupus "], ["ftp://b", "x"], ["http://c/2", ""]] =
      .ok [{ url := "http://a/1", scientific_name := "Canis lupus" }] := rfl
example :
    get_observation_data_from_csv [["name", "link"]] = .error (.missingColumn "url") := rfl

/-! ### Helper lemmas -/

theorem writesOf_append (a b : List Event) : writesOf (a ++ b) = writesOf a ++ writesOf b := by
  simp [writesOf, List.filterMap_append]

theorem writePaths_append (a b : List Event) :
    writePaths (a ++ b) = writePaths a ++ writePaths b := by
  simp [writePaths, writesOf_append]

theorem countSleep_append (a b : List Event) :
    countSleep (a ++ b) = countSleep a + countSleep b := by
  simp [countSleep, List.filter_append]

theorem handlerLog_is_log (url : String) (k : ErrKind) :
    ∃ m, handlerLog url k = Event.log m := by
  cases k <;> exact ⟨_, rfl⟩

/-- The photo loop never sleeps: the inter-record delay lives outside it. -/
theorem photoLoop_no_sleep (env : Env) (folder : List String) (oid : String) :
    ∀ ps i, Event.sleep ∉ (photoLoop env folder oid ps i).1 := by
  intro ps
  induction ps with
  | nil => intro i h; simp [photoLoop] at h
  | cons p rest ih =>
    intro i h
    cases hr : env.photoResp (imgUrlOf p) <;> simp [photoLoop, hr] at h
    exact ih (i + 1) h

/-- The photo loop finishes without raising exactly when every photo of the
list answers 2xx. -/
theorem photoLoop_snd_none_iff (env : Env) (folder : List String) (oid : String) :
    ∀ ps i, (photoLoop env folder oid ps i).2 = none ↔
      ∀ p ∈ ps, (env.photoResp (imgUrlOf p)).isOk = true := by
  intro ps
  induction ps with
  | nil => intro i; simp [photoLoop]
  | cons p rest ih =>
    intro i
    cases hr : env.photoResp (imgUrlOf p) <;>
      simp [photoLoop, hr, PhotoFetch.isOk, ih (i + 1)]

/-- Unfolding: a 2xx photo is fetched, written, and the loop continues. -/
theorem photoLoop_cons_ok (env : Env) (folder : List String) (oid : String)
    (p : PhotoEntry) (rest : List PhotoEntry) (i : Nat) (c : String)
    (h : env.photoResp (imgUrlOf p) = .ok c) :
    photoLoop env folder oid (p :: rest) i =
      (Event.getPhoto (imgUrlOf p) ::
        Event.write (folder ++ [photoFilename oid i]) c ::
        (photoLoop env folder oid rest (i + 1)).1,
       (photoLoop env folder oid rest (i + 1)).2) := by
  simp [photoLoop, h]

/-- Unfolding: a non-2xx photo response stops the loop right there with an
`HTTPError`; no later photo of the record is fetched or written. -/
theorem photoLoop_cons_httpErr (env : Env) (folder : List String) (oid : String)
    (p : PhotoEntry) (rest : List PhotoEntry) (i : Nat)
    (h : env.photoResp (imgUrlOf p) = .httpErr) :
    photoLoop env folder oid (p :: rest) i =
      ([Event.getPhoto (imgUrlOf p)], some .http) := by
  simp [photoLoop, h]

/-- Unfolding: a network error on a photo stops the loop right there. -/
theorem photoLoop_cons_netErr (env : Env) (folder : List String) (oid : String)
    (p : PhotoEntry) (rest : List PhotoEntry) (i : Nat)
    (h : env.photoResp (imgUrlOf p) = .netErr) :
    photoLoop env folder oid (p :: rest) i =
      ([Event.getPhoto (imgUrlOf p)], some .net) := by
  simp [photoLoop, h]

/-- Shape of every write of the photo loop: it targets
`folder/<oid>_<j>.jpg` for some index `j` at or beyond the running index,
and its content is the body of a 2xx photo response that the loop fetched. -/
theorem photoLoop_write_shape (env : Env) (folder : List String) (oid : String) :
    ∀ ps i path c, Event.write path c ∈ (photoLoop env folder oid ps i).1 →
      (∃ j, i ≤ j ∧ path = folder ++ [photoFilename oid j]) ∧
      (∃ u, env.photoResp u = .ok c ∧
        Event.getPhoto u ∈ (photoLoop env folder oid ps i).1) := by
  intro ps
  induction ps with
  | nil => intro i path c h; simp [photoLoop] at h
  | cons p rest ih =>
    intro i path c h
    cases hr : env.photoResp (imgUrlOf p) with
    | ok content =>
      rw [photoLoop_cons_ok env folder oid p rest i content hr] at h
      simp only [List.mem_cons] at h
      rcases h with h | h | h
      · exact absurd h (by simp)
      · rw [Event.write.injEq] at h
        obtain ⟨h1, h2⟩ := h
        subst h1
        subst h2
        refine ⟨⟨i, Nat.le_refl i, rfl⟩, ⟨imgUrlOf p, hr, ?_⟩⟩
        rw [photoLoop_cons_ok env folder oid p rest i c hr]
        simp
      · rcases ih (i + 1) path c h with ⟨⟨j, hj, hpath⟩, ⟨u, hu, hmem⟩⟩
        refine ⟨⟨j, by omega, hpath⟩, ⟨u, hu, ?_⟩⟩
        rw [photoLoop_cons_ok env folder oid p rest i content hr]
        simp only [List.mem_cons]
        exact Or.inr (Or.inr hmem)
    | httpErr => rw [photoLoop_cons_httpErr env folder oid p rest i hr] at h; simp at h
    | netErr => rw [photoLoop_cons_netErr env folder oid p rest i hr] at h; simp at h

/-- Every `getPhoto` issued by the photo loop targets the
`square`-to-`large` transform of some listed photo's url. -/
theorem photoLoop_getPhoto_shape (env : Env) (folder : List String) (oid : String) :
    ∀ ps i u, Event.getPhoto u ∈ (photoLoop env folder oid ps i).1 →
      ∃ p, p ∈ ps ∧ u = imgUrlOf p := by
  intro ps
  induction ps with
  | nil => intro i u h; simp [photoLoop] at h
  | cons p rest ih =>
    intro i u h
    cases hr : env.photoResp (imgUrlOf p) with
    | ok content =>
      rw [photoLoop, hr] at h
      simp only [List.mem_cons] at h
      rcases h with h | h | h
      · exact ⟨p, by simp, by injection h⟩
      · exact absurd h (by simp)
      · rcases ih (i + 1) u h with ⟨q, hq, hu⟩
        exact ⟨q, by simp [hq], hu⟩
    | httpErr =>
      rw [photoLoop, hr] at h
      simp only [List.mem_singleton] at h
      exact ⟨p, by simp, by injection h⟩
    | netErr =>
      rw [photoLoop, hr] at h
      simp only [List.mem_singleton] at h
      exact ⟨p, by simp, by injection h⟩

/-- When every photo answers 2xx, the loop writes exactly one file per
photo, indexed consecutively from the running index, in order. -/
theorem photoLoop_all_ok_writePaths (env : Env) (folder : List String) (oid : String) :
    ∀ ps i, (∀ p ∈ ps, (env.photoResp (imgUrlOf p)).isOk = true) →
      writePaths (photoLoop env folder oid ps i).1 =
        (List.range ps.length).map (fun k => folder ++ [photoFilename oid (i + k)]) := by
  intro ps
  induction ps with
  | nil => intro i h; simp [photoLoop, writePaths, writesOf]
  | cons p rest ih =>
    intro i h
    have hp : (env.photoResp (imgUrlOf p)).isOk = true := h p (by simp)
    cases hr : env.photoResp (imgUrlOf p) with
    | ok content =>
      rw [photoLoop_cons_ok env folder oid p rest i content hr]
      have hrest := ih (i + 1) (fun q hq => h q (by simp [hq]))
      have hw : writePaths (Event.getPhoto (imgUrlOf p) ::
            Event.write (folder ++ [photoFilename oid i]) content ::
            (photoLoop env folder oid rest (i + 1)).1) =
          (folder ++ [photoFilename oid i]) ::
            writePaths (photoLoop env folder oid rest (i + 1)).1 := by
        simp [writePaths, writesOf]
      rw [hw, hrest, List.length_cons, List.range_succ_eq_map, List.map_cons, List.map_map]
      refine congrArg₂ _ (by simp) ?_
      refine List.map_congr_left fun k _ => ?_
      have he : i + 1 + k = i + (k + 1) := by omega
      simp [Function.comp, he]
    | httpErr => rw [hr] at hp; simp [PhotoFetch.isOk] at hp
    | netErr => rw [hr] at hp; simp [PhotoFetch.isOk] at hp

/-- Unfolding: a record whose trailing URL segment is not all digits only
logs the warning. -/
theorem processRecord_invalid (env : Env) (base : String) (obs : ObservationRecord)
    (h : pyIsDigit (lastSegment obs.url) = false) :
    processRecord env base obs =
      [Event.log ("Skipping invalid URL format: " ++ obs.url)] := by
  simp [processRecord, h]

/-- Unfolding: a record that reached the photo loop and whose loop finished
without raising ends with the inter-record sleep. -/
theorem processRecord_loop_done (env : Env) (base : String) (obs : ObservationRecord)
    (q : PhotoEntry) (qs : List PhotoEntry) (ds : List ObsDetails)
    (hd : pyIsDigit (lastSegment obs.url) = true)
    (hr : env.obsResp (apiUrlOf (lastSegment obs.url)) = .ok ⟨some (⟨some (q :: qs)⟩ :: ds)⟩)
    (hsnd : (photoLoop env [base, speciesFolderName obs] (lastSegment obs.url) (q :: qs) 1).2 = none) :
    processRecord env base obs =
      Event.ensureDir [base, speciesFolderName obs] ::
      Event.getObs (apiUrlOf (lastSegment obs.url)) ::
      ((photoLoop env [base, speciesFolderName obs] (lastSegment obs.url) (q :: qs) 1).1 ++
        [Event.sleep]) := by
  simp [processRecord, hd, hr, hsnd]

/-- Unfolding: a record whose photo loop raised ends with the record-level
handler's log instead of the sleep. -/
theorem processRecord_loop_raised (env : Env) (base : String) (obs : ObservationRecord)
    (q : PhotoEntry) (qs : List PhotoEntry) (ds : List ObsDetails) (k : ErrKind)
    (hd : pyIsDigit (lastSegment obs.url) = true)
    (hr : env.obsResp (apiUrlOf (lastSegment obs.url)) = .ok ⟨some (⟨some (q :: qs)⟩ :: ds)⟩)
    (hsnd : (photoLoop env [base, speciesFolderName obs] (lastSegment obs.url) (q :: qs) 1).2 = some k) :
    processRecord env base obs =
      Event.ensureDir [base, speciesFolderName obs] ::
      Event.getObs (apiUrlOf (lastSegment obs.url)) ::
      ((photoLoop env [base, speciesFolderName obs] (lastSegment obs.url) (q :: qs) 1).1 ++
        [handlerLog obs.url k]) := by
  simp [processRecord, hd, hr, hsnd]

/-- Every write of a record's trace happens with an all-digits observation
id, lands at `base/<species folder>/<id>_<j>.jpg` with `j ≥ 1`, and carries
the body of a 2xx photo response that the record actually fetched. -/
theorem processRecord_write_mem (env : Env) (base : String) (rec : ObservationRecord)
    (path : List String) (c : String)
    (h : Event.write path c ∈ processRecord env base rec) :
    pyIsDigit (lastSegment rec.url) = true ∧
    (∃ j, 1 ≤ j ∧
      path = [base, speciesFolderName rec, photoFilename (lastSegment rec.url) j]) ∧
    (∃ u, env.photoResp u = .ok c ∧ Event.getPhoto u ∈ processRecord env base rec) := by
  cases hd : pyIsDigit (lastSegment rec.url) with
  | false => rw [processRecord_invalid env base rec hd] at h; simp at h
  | true =>
    unfold processRecord at h
    simp only [hd, Bool.not_true] at h
    rw [if_neg (by simp)] at h
    cases hobs : env.obsResp (apiUrlOf (lastSegment rec.url)) with
    | netErr => rw [hobs] at h; simp [handlerLog] at h
    | httpErr => rw [hobs] at h; simp [handlerLog] at h
    | badJson => rw [hobs] at h; simp [handlerLog] at h
    | ok data =>
      rw [hobs] at h
      obtain ⟨results⟩ := data
      cases results with
      | none => simp at h
      | some ds =>
        cases ds with
        | nil => simp at h
        | cons details ds =>
          obtain ⟨photos⟩ := details
          cases photos with
          | none => simp at h
          | some ps =>
            cases ps with
            | nil => simp at h
            | cons q qs =>
              simp only [] at h
              have hmem : Event.write path c ∈
                  (photoLoop env [base, speciesFolderName rec] (lastSegment rec.url)
                    (q :: qs) 1).1 := by
                simp only [List.mem_cons, List.mem_append] at h
                rcases h with h | h | h | h
                · exact absurd h (by simp)
                · exact absurd h (by simp)
                · exact h
                · exfalso
                  rcases hcase : (photoLoop env [base, speciesFolderName rec]
                      (lastSegment rec.url) (q :: qs) 1).2 with _ | k
                  · rw [hcase] at h; simp at h
                  · rw [hcase] at h
                    obtain ⟨m, hm⟩ := handlerLog_is_log rec.url k
                    simp [hm] at h
              obtain ⟨⟨j, hj, hpath⟩, ⟨u, hu, hup⟩⟩ :=
                photoLoop_write_shape env [base, speciesFolderName rec]
                  (lastSegment rec.url) (q :: qs) 1 path c hmem
              refine ⟨rfl, ⟨j, hj, by rw [hpath]; rfl⟩, ⟨u, hu, ?_⟩⟩
              rw [processRecord]
              simp only [hd, Bool.not_true]
              rw [if_neg (by simp)]
              rw [hobs]
              simp only [List.mem_cons, List.mem_append]
              exact Or.inr (Or.inr (Or.inl hup))

theorem countSleep_cons (e : Event) (l : List Event) :
    countSleep (e :: l) = (if isSleep e then 1 else 0) + countSleep l := by
  simp only [countSleep, List.filter_cons]
  cases h : isSleep e <;> simp [h, Nat.add_comm]

theorem countSleep_eq_zero_of_not_mem (l : List Event) (h : Event.sleep ∉ l) :
    countSleep l = 0 := by
  induction l with
  | nil => rfl
  | cons e rest ih =>
    rw [countSleep_cons]
    have he : e ≠ Event.sleep := fun hc => h (by simp [hc])
    have : isSleep e = false := by cases e <;> simp [isSleep] at he ⊢
    rw [this]
    simp [ih (fun hc => h (by simp [hc]))]

/-- Every element the sanitizer produces is legal: not in the removed
character class and not a space. -/
theorem mem_sanitizeChars (cs : List Char) (c : Char) (h : c ∈ sanitizeChars cs) :
    badChars.contains c = false ∧ c ≠ ' ' := by
  unfold sanitizeChars at h
  rw [List.mem_map] at h
  obtain ⟨b, hb, hbc⟩ := h
  rw [List.mem_filter] at hb
  by_cases hsp : b = ' '
  · rw [← hbc, hsp]
    exact ⟨by decide, by decide⟩
  · rw [← hbc, if_neg hsp]
    refine ⟨?_, hsp⟩
    have := hb.2
    simp only [Bool.not_eq_true'] at this
    exact this

/-- Sanitization fixes any list of already-legal characters. -/
theorem sanitizeChars_of_clean (l : List Char)
    (h : ∀ c ∈ l, badChars.contains c = false ∧ c ≠ ' ') :
    sanitizeChars l = l := by
  unfold sanitizeChars
  rw [List.filter_eq_self.mpr (fun c hc => by simpa using (h c hc).1)]
  conv_rhs => rw [← List.map_id l]
  exact List.map_congr_left fun c hc => by simp [(h c hc).2]

theorem sanitizeChars_append (as bs : List Char) :
    sanitizeChars (as ++ bs) = sanitizeChars as ++ sanitizeChars bs := by
  simp [sanitizeChars, List.filter_append]

/-- A pattern that never occurs leaves `replaceGo` as the identity, for any
amount of fuel. -/
theorem replaceGo_no_occurrence (pat rep : List Char) :
    ∀ l fuel, hasSub pat l = false → replaceGo pat rep fuel l = l := by
  intro l
  induction l with
  | nil => intro fuel h; cases fuel <;> rfl
  | cons c cs ih =>
    intro fuel h
    simp only [hasSub, Bool.or_eq_false_iff] at h
    cases fuel with
    | zero => rfl
    | succ f =>
      unfold replaceGo
      rw [if_neg (fun hc => by rw [h.1] at hc; exact absurd hc.2 (by simp))]
      rw [ih f h.2]

/-- `takeWhile` up to the first explicit underscore recovers the left part,
when the left part itself has no underscore. -/
theorem takeWhile_until_underscore (l r : List Char) (h : ∀ c ∈ l, c ≠ '_') :
    (l ++ '_' :: r).takeWhile (fun c => c != '_') = l := by
  induction l with
  | nil => simp [List.takeWhile]
  | cons c cs ih =>
    have hc : c ≠ '_' := h c (by simp)
    simp only [List.cons_append, List.takeWhile_cons]
    rw [if_pos (by simp [hc])]
    rw [ih (fun d hd => h d (by simp [hd]))]

/-- An all-digits string contains no underscore. -/
theorem digits_no_underscore (s : String) (h : pyIsDigit s = true) :
    ∀ c ∈ s.data, c ≠ '_' := by
  intro c hc heq
  unfold pyIsDigit at h
  rw [Bool.and_eq_true] at h
  have := (List.all_eq_true.mp h.2) c hc
  rw [heq] at this
  exact absurd this (by decide)

/-- Filenames embed the observation id: distinct all-digits ids give
distinct filenames, whatever the photo indices. -/
theorem photoFilename_id_injective (id1 id2 : String) (a b : Nat)
    (h1 : pyIsDigit id1 = true) (h2 : pyIsDigit id2 = true) (hne : id1 ≠ id2) :
    photoFilename id1 a ≠ photoFilename id2 b := by
  intro heq
  apply hne
  have hdata : (photoFilename id1 a).data = (photoFilename id2 b).data := by rw [heq]
  unfold photoFilename at hdata
  simp only [String.data_append, List.append_assoc, List.singleton_append,
    List.cons_append] at hdata
  have htw := congrArg (List.takeWhile (fun c => c != '_')) hdata
  rw [takeWhile_until_underscore _ _ (digits_no_underscore id1 h1),
      takeWhile_until_underscore _ _ (digits_no_underscore id2 h2)] at htw
  exact String.ext htw

/-! ### Claim theorems -/

/-- C1: for every CSV whose header row contains columns named `url` and
`scientific_name` (matched case-insensitively after trimming, at first
matching positions `u` and `n`, in any position), the loader returns
exactly those data rows that have enough cells to reach both column
positions and whose trimmed url value starts with `http` and whose trimmed
scientific-name value is non-empty, as records of the trimmed values, in
the original CSV row order — `claimExtract` is that extraction, written
from the specification's words. -/
theorem loader_extracts_exactly_claimed_rows
    (headerRow : List String) (dataRows : List (List String)) (u n : Nat)
    (hu : (headerRow.map normCell).findIdx? (fun h => h == "url") = some u)
    (hn : (headerRow.map normCell).findIdx? (fun h => h == "scientific_name") = some n) :
    get_observation_data_from_csv (headerRow :: dataRows) =
      .ok (claimExtract u n dataRows) := by
  unfold get_observation_data_from_csv
  simp only [hu, hn]
  unfold claimExtract
  refine congrArg Except.ok (List.filterMap_congr fun row _ => ?_)
  by_cases hrow : u < row.length ∧ n < row.length
  · have h1 : row ≠ [] := by
      intro he
      rw [he] at hrow
      exact absurd hrow.1 (by simp)
    have h2 : row.length > max u n := Nat.max_lt.mpr ⟨hrow.1, hrow.2⟩
    rw [if_pos ⟨h1, h2⟩, if_pos hrow]
  · have hneg : ¬(row ≠ [] ∧ row.length > max u n) := by
      rintro ⟨hne, hgt⟩
      exact hrow ⟨Nat.lt_of_le_of_lt (Nat.le_max_left u n) hgt,
        Nat.lt_of_le_of_lt (Nat.le_max_right u n) hgt⟩
    rw [if_neg hneg, if_neg hrow]

/-- Witness for C1 on a concrete CSV: columns in swapped order, mixed case,
one qualifying row, one row with empty name, one row with a non-http url. -/
theorem loader_extracts_exactly_claimed_rows_witness :
    get_observation_data_from_csv
        [["Scientific_Name", " URL "],
         ["Canis lupus", "http://a/1"],
         ["", "http://b/2"],
         ["X", "ftp://c"]] =
      .ok (claimExtract 1 0
        [["Canis lupus", "http://a/1"], ["", "http://b/2"], ["X", "ftp://c"]]) :=
  loader_extracts_exactly_claimed_rows ["Scientific_Name", " URL "]
    [["Canis lupus", "http://a/1"], ["", "http://b/2"], ["X", "ftp://c"]] 1 0
    (by decide) (by decide)

/-- C9: a CSV whose header lacks the `url` column (or lacks the
`scientific_name` column) makes the loader fail naming the missing column
(the `url` lookup runs first), extracting zero records, and the main block
then performs no downloading at all. -/
theorem missing_column_fails_and_skips_download :
    (∀ (env : Env) (base : String) (headerRow : List String) (dataRows : List (List String)),
        (headerRow.map normCell).findIdx? (fun h => h == "url") = none →
        get_observation_data_from_csv (headerRow :: dataRows) =
          .error (.missingColumn "url") ∧
        mainRun env base (headerRow :: dataRows) = []) ∧
    (∀ (env : Env) (base : String) (headerRow : List String) (dataRows : List (List String)) (u : Nat),
        (headerRow.map normCell).findIdx? (fun h => h == "url") = some u →
        (headerRow.map normCell).findIdx? (fun h => h == "scientific_name") = none →
        get_observation_data_from_csv (headerRow :: dataRows) =
          .error (.missingColumn "scientific_name") ∧
        mainRun env base (headerRow :: dataRows) = []) := by
  constructor
  · intro env base headerRow dataRows h
    have hl : get_observation_data_from_csv (headerRow :: dataRows) =
        .error (.missingColumn "url") := by
      unfold get_observation_data_from_csv
      simp only [h]
    exact ⟨hl, by unfold mainRun; rw [hl]⟩
  · intro env base headerRow dataRows u hu hn
    have hl : get_observation_data_from_csv (headerRow :: dataRows) =
        .error (.missingColumn "scientific_name") := by
      unfold get_observation_data_from_csv
      simp only [hu, hn]
    exact ⟨hl, by unfold mainRun; rw [hl]⟩

/-- Witness for C9: a header with only `scientific_name`, and a header with
only `url`, each with a data row that would otherwise qualify. -/
theorem missing_column_fails_and_skips_download_witness :
    (get_observation_data_from_csv [["scientific_name"], ["Canis lupus"]] =
        .error (.missingColumn "url") ∧
      mainRun envAllOk "base" [["scientific_name"], ["Canis lupus"]] = []) ∧
    (get_observation_data_from_csv [["url"], ["http://a/1"]] =
        .error (.missingColumn "scientific_name") ∧
      mainRun envAllOk "base" [["url"], ["http://a/1"]] = []) :=
  ⟨missing_column_fails_and_skips_download.1 envAllOk "base" ["scientific_name"]
      [["Canis lupus"]] (by decide),
   missing_column_fails_and_skips_download.2 envAllOk "base" ["url"]
      [["http://a/1"]] 0 (by decide) (by decide)⟩

/-- C7: name sanitization is deterministic (equal inputs give equal folder
names), idempotent, never lets any of the characters `\ / * ? : " < > |`
through, and spaces become underscores: no space survives, and a space
splices into the output exactly as an underscore. -/
theorem sanitize_deterministic_idempotent_clean :
    (∀ s t : String, s = t → sanitize s = sanitize t) ∧
    (∀ s : String, sanitize (sanitize s) = sanitize s) ∧
    (∀ (s : String) (c : Char), c ∈ (sanitize s).data → badChars.contains c = false) ∧
    (∀ s : String, ' ' ∉ (sanitize s).data) ∧
    (∀ a b : String, sanitize (a ++ " " ++ b) = sanitize a ++ "_" ++ sanitize b) := by
  refine ⟨fun s t h => by rw [h], ?_, ?_, ?_, ?_⟩
  · intro s
    exact congrArg String.mk
      (sanitizeChars_of_clean _ (fun c hc => mem_sanitizeChars s.data c hc))
  · intro s c hc
    exact (mem_sanitizeChars s.data c hc).1
  · intro s h
    exact (mem_sanitizeChars s.data ' ' h).2 rfl
  · intro a b
    apply String.ext
    have h1 : ∀ l, sanitizeChars (' ' :: l) = '_' :: sanitizeChars l := fun l => rfl
    simp [sanitize, String.data_append, sanitizeChars_append, h1]

/-- Witness for C7: determinism and the no-bad-character clause at concrete
inputs. -/
theorem sanitize_deterministic_idempotent_clean_witness :
    sanitize "a: b" = sanitize "a: b" ∧ badChars.contains 'a' = false :=
  ⟨sanitize_deterministic_idempotent_clean.1 "a: b" "a: b" rfl,
   sanitize_deterministic_idempotent_clean.2.2.1 "a: b" 'a' (by decide)⟩

/-- C6: every photo URL the downloader actually fetches equals some listed
photo's `url` field with the substring `square` replaced by `large`; and
when `square` does not occur in the url, the replacement is the identity,
so the original URL is fetched unchanged (pass-through, not an error). -/
theorem fetched_url_is_square_to_large :
    (∀ (env : Env) (folder : List String) (oid : String) (ps : List PhotoEntry)
        (i : Nat) (u : String),
        Event.getPhoto u ∈ (photoLoop env folder oid ps i).1 →
        ∃ p, p ∈ ps ∧ u = pyReplace p.url "square" "large") ∧
    (∀ s : String, hasSub "square".data s.data = false →
        pyReplace s "square" "large" = s) := by
  constructor
  · intro env folder oid ps i u h
    exact photoLoop_getPhoto_shape env folder oid ps i u h
  · intro s h
    unfold pyReplace
    rw [replaceGo_no_occurrence _ _ _ _ h]

/-- Witness for C6: the fetched URL of observation 77's first photo, and
pass-through on a URL with no `square` in it. -/
theorem fetched_url_is_square_to_large_witness :
    (∃ p, p ∈ [photoSq1, photoSq2] ∧
        "http://p/large/1.jpg" = pyReplace p.url "square" "large") ∧
    pyReplace "http://plain/img.jpg" "square" "large" = "http://plain/img.jpg" :=
  ⟨fetched_url_is_square_to_large.1 envAllOk ["base", "Canis_lupus"] "77"
      [photoSq1, photoSq2] 1 "http://p/large/1.jpg" (by decide),
   fetched_url_is_square_to_large.2 "http://plain/img.jpg" (by decide)⟩

/-- C8: a record whose URL's trailing path segment is not all digits is
skipped with only the warning log: no HTTP request is issued, no directory
is ensured, nothing is written, and processing continues with the next
record. -/
theorem invalid_url_record_skipped (env : Env) (base : String)
    (rec : ObservationRecord) (rest : List ObservationRecord)
    (h : pyIsDigit (lastSegment rec.url) = false) :
    processRecord env base rec =
      [Event.log ("Skipping invalid URL format: " ++ rec.url)] ∧
    (∀ u, Event.getObs u ∉ processRecord env base rec) ∧
    (∀ u, Event.getPhoto u ∉ processRecord env base rec) ∧
    (∀ p, Event.ensureDir p ∉ processRecord env base rec) ∧
    (∀ p c, Event.write p c ∉ processRecord env base rec) ∧
    recordsEvents env base (rec :: rest) =
      Event.log ("Skipping invalid URL format: " ++ rec.url) ::
        recordsEvents env base rest := by
  have he := processRecord_invalid env base rec h
  refine ⟨he, ?_, ?_, ?_, ?_, ?_⟩
  · intro u hm; rw [he] at hm; simp at hm
  · intro u hm; rw [he] at hm; simp at hm
  · intro p hm; rw [he] at hm; simp at hm
  · intro p c hm; rw [he] at hm; simp at hm
  · simp [recordsEvents, he]

/-- Witness for C8: a URL ending in a non-numeric segment only produces the
warning. -/
theorem invalid_url_record_skipped_witness :
    processRecord envAllOk "base" { url := "http://x/obs/abc", scientific_name := "N" } =
      [Event.log ("Skipping invalid URL format: " ++
        ({ url := "http://x/obs/abc", scientific_name := "N" } : ObservationRecord).url)] :=
  (invalid_url_record_skipped envAllOk "base"
    { url := "http://x/obs/abc", scientific_name := "N" } [] (by decide)).1

/-- C10: every file write of a run carries the body of a photo response
that was received and checked 2xx-successful; a photo GET that fails
(non-2xx or network error) never produces a write, leaving the filesystem
unchanged for that photo. -/
theorem write_only_after_checked_success (env : Env) (base : String)
    (recs : List ObservationRecord) (path : List String) (c : String)
    (h : Event.write path c ∈ download_inaturalist_photos_api env recs base) :
    ∃ u, env.photoResp u = .ok c ∧
      Event.getPhoto u ∈ download_inaturalist_photos_api env recs base := by
  unfold download_inaturalist_photos_api at h ⊢
  by_cases hr : recs = []
  · rw [if_pos hr] at h; simp at h
  · rw [if_neg hr] at h
    rw [if_neg hr]
    simp only [List.mem_append, List.mem_cons] at h
    rcases h with (h | h) | h
    · exact absurd h (by simp)
    · unfold recordsEvents at h
      rw [List.mem_flatMap] at h
      obtain ⟨rec, hrec, hw⟩ := h
      obtain ⟨_, _, ⟨u, hu, hup⟩⟩ := processRecord_write_mem env base rec path c hw
      refine ⟨u, hu, ?_⟩
      simp only [List.mem_append, List.mem_cons]
      refine Or.inl (Or.inr ?_)
      unfold recordsEvents
      rw [List.mem_flatMap]
      exact ⟨rec, hrec, hup⟩
    · exact absurd h (by simp)

/-- Witness for C10: the one write of observation 77's first photo carries
the 2xx body `A` of a fetched URL. -/
theorem write_only_after_checked_success_witness :
    ∃ u, envAllOk.photoResp u = .ok "A" ∧
      Event.getPhoto u ∈ download_inaturalist_photos_api envAllOk [recObs77] "base" :=
  write_only_after_checked_success envAllOk "base" [recObs77]
    ["base", "Canis_lupus", "77_1.jpg"] "A" (by decide)

/-- C5: a record whose API response lists photos `q :: qs` (all downloads
succeeding) writes exactly one file per photo, named
`<id>_1.jpg` … `<id>_n.jpg` with the 1-based index following the
API-returned order, all placed under the sanitized species folder. -/
theorem all_success_writes_one_file_per_photo (env : Env) (base : String)
    (rec : ObservationRecord) (q : PhotoEntry) (qs : List PhotoEntry) (ds : List ObsDetails)
    (hd : pyIsDigit (lastSegment rec.url) = true)
    (hsan : sanitize rec.scientific_name ≠ "")
    (hresp : env.obsResp (apiUrlOf (lastSegment rec.url)) =
      .ok ⟨some (⟨some (q :: qs)⟩ :: ds)⟩)
    (hok : ∀ p ∈ q :: qs, (env.photoResp (imgUrlOf p)).isOk = true) :
    writePaths (processRecord env base rec) =
      (List.range (q :: qs).length).map (fun k =>
        [base, sanitize rec.scientific_name,
          photoFilename (lastSegment rec.url) (k + 1)]) := by
  have hfold : speciesFolderName rec = sanitize rec.scientific_name := by
    unfold speciesFolderName
    rw [if_neg hsan]
  have hsnd : (photoLoop env [base, speciesFolderName rec] (lastSegment rec.url)
      (q :: qs) 1).2 = none :=
    (photoLoop_snd_none_iff env _ _ (q :: qs) 1).mpr hok
  rw [processRecord_loop_done env base rec q qs ds hd hresp hsnd]
  have h2 : writePaths (Event.ensureDir [base, speciesFolderName rec] ::
      Event.getObs (apiUrlOf (lastSegment rec.url)) ::
      ((photoLoop env [base, speciesFolderName rec] (lastSegment rec.url) (q :: qs) 1).1 ++
        [Event.sleep])) =
      writePaths (photoLoop env [base, speciesFolderName rec] (lastSegment rec.url)
        (q :: qs) 1).1 := by
    simp [writePaths, writesOf, List.filterMap_append]
  rw [h2, photoLoop_all_ok_writePaths env _ _ (q :: qs) 1 hok, hfold]
  refine List.map_congr_left fun k _ => ?_
  have hk : 1 + k = k + 1 := Nat.add_comm 1 k
  rw [hk]
  rfl

/-- Witness for C5: observation 77's two photos produce exactly the files
`77_1.jpg` and `77_2.jpg` under `base/Canis_lupus/`. -/
theorem all_success_writes_one_file_per_photo_witness :
    writePaths (processRecord envAllOk "base" recObs77) =
      (List.range (photoSq1 :: [photoSq2]).length).map (fun k =>
        ["base", sanitize recObs77.scientific_name,
          photoFilename (lastSegment recObs77.url) (k + 1)]) :=
  all_success_writes_one_file_per_photo envAllOk "base" recObs77 photoSq1 [photoSq2] []
    (by decide) (by decide) (by decide) (by decide)

/-- C2 counterexample: in `envFirstPhotoFails` the GET for observation 77's
first photo returns non-2xx, yet the run does not continue with the
record's second photo — the whole record is aborted by the record-level
handler, so the claim "processing continues with the remaining photos of
the same record" is false on this input. -/
theorem photo_failure_aborts_record_counterexample :
    envFirstPhotoFails.photoResp (imgUrlOf photoSq1) = .httpErr ∧
    envFirstPhotoFails.obsResp "https://api.inaturalist.org/v1/observations/77" =
      .ok apiDataTwo ∧
    processRecord envFirstPhotoFails "base" recObs77 =
      [Event.ensureDir ["base", "Canis_lupus"],
       Event.getObs "https://api.inaturalist.org/v1/observations/77",
       Event.getPhoto "http://p/large/1.jpg",
       Event.log "HTTP Error for http://x/obs/77"] ∧
    Event.getPhoto (imgUrlOf photoSq2) ∉
      processRecord envFirstPhotoFails "base" recObs77 := by
  decide

/-- C2 amended: a non-2xx photo response raises `HTTPError` out of the
photo loop: that photo is not written, the remaining photos of the record
are neither fetched nor written, the record-level handler logs the failure,
previously downloaded photos of the record keep their writes, and
processing continues with the next record. -/
theorem photo_http_error_aborts_record :
    (∀ (env : Env) (folder : List String) (oid : String) (p : PhotoEntry)
        (rest : List PhotoEntry) (i : Nat),
        env.photoResp (imgUrlOf p) = .httpErr →
        photoLoop env folder oid (p :: rest) i =
          ([Event.getPhoto (imgUrlOf p)], some .http)) ∧
    (∀ (env : Env) (folder : List String) (oid : String) (p : PhotoEntry)
        (rest : List PhotoEntry) (i : Nat) (c : String),
        env.photoResp (imgUrlOf p) = .ok c →
        photoLoop env folder oid (p :: rest) i =
          (Event.getPhoto (imgUrlOf p) ::
            Event.write (folder ++ [photoFilename oid i]) c ::
            (photoLoop env folder oid rest (i + 1)).1,
           (photoLoop env folder oid rest (i + 1)).2)) ∧
    (∀ (env : Env) (base : String) (rec : ObservationRecord) (q : PhotoEntry)
        (qs : List PhotoEntry) (ds : List ObsDetails) (k : ErrKind),
        pyIsDigit (lastSegment rec.url) = true →
        env.obsResp (apiUrlOf (lastSegment rec.url)) =
          .ok ⟨some (⟨some (q :: qs)⟩ :: ds)⟩ →
        (photoLoop env [base, speciesFolderName rec] (lastSegment rec.url)
          (q :: qs) 1).2 = some k →
        handlerLog rec.url k ∈ processRecord env base rec) ∧
    (∀ (env : Env) (base : String) (r : ObservationRecord) (rs : List ObservationRecord),
        recordsEvents env base (r :: rs) =
          processRecord env base r ++ recordsEvents env base rs) := by
  refine ⟨photoLoop_cons_httpErr, photoLoop_cons_ok, ?_, ?_⟩
  · intro env base rec q qs ds k hd hresp hsnd
    rw [processRecord_loop_raised env base rec q qs ds k hd hresp hsnd]
    simp
  · intro env base r rs
    simp [recordsEvents]

/-- Witness for C2's amended theorem: the aborting loop of observation 77
and the handler log in its record trace. -/
theorem photo_http_error_aborts_record_witness :
    photoLoop envFirstPhotoFails ["base", "Canis_lupus"] "77" (photoSq1 :: [photoSq2]) 1 =
      ([Event.getPhoto (imgUrlOf photoSq1)], some ErrKind.http) ∧
    handlerLog recObs77.url ErrKind.http ∈
      processRecord envFirstPhotoFails "base" recObs77 :=
  ⟨photo_http_error_aborts_record.1 envFirstPhotoFails ["base", "Canis_lupus"] "77"
      photoSq1 [photoSq2] 1 (by decide),
   photo_http_error_aborts_record.2.2.1 envFirstPhotoFails "base" recObs77 photoSq1
      [photoSq2] [] ErrKind.http (by decide) (by decide) (by decide)⟩

/-- C3 counterexample: observation 77 reaches the photo loop (its first
photo is even fetched and written) but its second photo fails, and no sleep
happens — contradicting "the delay runs once for every record that reached
the photo loop, whether or not individual photo downloads failed". -/
theorem delay_skipped_on_photo_failure_counterexample :
    Event.write ["base", "Canis_lupus", "77_1.jpg"] "A" ∈
      processRecord envSecondPhotoFails "base" recObs77 ∧
    envSecondPhotoFails.photoResp (imgUrlOf photoSq2) = .httpErr ∧
    countSleep (processRecord envSecondPhotoFails "base" recObs77) = 0 := by
  decide

/-- C3 amended: the fixed 1-unit delay runs exactly once for a record iff
the record reached the photo loop and every one of its photo GETs
succeeded; it is skipped both for records skipped before the photo loop
(invalid URL, HTTP failure on the observation request, empty results, no
photos) and for records whose photo loop aborted on a failed photo. -/
theorem delay_runs_iff_photo_loop_completes :
    (∀ (env : Env) (base : String) (rec : ObservationRecord),
        pyIsDigit (lastSegment rec.url) = false →
        countSleep (processRecord env base rec) = 0) ∧
    (∀ (env : Env) (base : String) (rec : ObservationRecord),
        pyIsDigit (lastSegment rec.url) = true →
        env.obsResp (apiUrlOf (lastSegment rec.url)) = .httpErr →
        countSleep (processRecord env base rec) = 0) ∧
    (∀ (env : Env) (base : String) (rec : ObservationRecord),
        pyIsDigit (lastSegment rec.url) = true →
        env.obsResp (apiUrlOf (lastSegment rec.url)) = .ok ⟨some []⟩ →
        countSleep (processRecord env base rec) = 0) ∧
    (∀ (env : Env) (base : String) (rec : ObservationRecord) (ds : List ObsDetails),
        pyIsDigit (lastSegment rec.url) = true →
        env.obsResp (apiUrlOf (lastSegment rec.url)) = .ok ⟨some (⟨some []⟩ :: ds)⟩ →
        countSleep (processRecord env base rec) = 0) ∧
    (∀ (env : Env) (base : String) (rec : ObservationRecord) (q : PhotoEntry)
        (qs : List PhotoEntry) (ds : List ObsDetails),
        pyIsDigit (lastSegment rec.url) = true →
        env.obsResp (apiUrlOf (lastSegment rec.url)) =
          .ok ⟨some (⟨some (q :: qs)⟩ :: ds)⟩ →
        countSleep (processRecord env base rec) =
          (if (q :: qs).all (fun p => (env.photoResp (imgUrlOf p)).isOk) then 1 else 0)) := by
  refine ⟨?_, ?_, ?_, ?_, ?_⟩
  · intro env base rec h
    rw [processRecord_invalid env base rec h]
    rfl
  · intro env base rec hd hobs
    unfold processRecord
    simp [hd, hobs, countSleep, List.filter_cons, isSleep, handlerLog]
  · intro env base rec hd hobs
    unfold processRecord
    simp [hd, hobs, countSleep, List.filter_cons, isSleep]
  · intro env base rec ds hd hobs
    unfold processRecord
    simp [hd, hobs, countSleep, List.filter_cons, isSleep]
  · intro env base rec q qs ds hd hresp
    by_cases hall : ∀ p ∈ q :: qs, (env.photoResp (imgUrlOf p)).isOk = true
    · have hsnd : (photoLoop env [base, speciesFolderName rec] (lastSegment rec.url)
          (q :: qs) 1).2 = none :=
        (photoLoop_snd_none_iff env _ _ (q :: qs) 1).mpr hall
      rw [processRecord_loop_done env base rec q qs ds hd hresp hsnd]
      rw [List.all_eq_true.mpr hall]
      rw [countSleep_cons, countSleep_cons, countSleep_append,
        countSleep_eq_zero_of_not_mem _ (photoLoop_no_sleep env _ _ (q :: qs) 1)]
      simp [isSleep, countSleep, List.filter_cons]
    · rcases hcase : (photoLoop env [base, speciesFolderName rec] (lastSegment rec.url)
          (q :: qs) 1).2 with _ | k
      · exact absurd ((photoLoop_snd_none_iff env _ _ (q :: qs) 1).mp hcase) hall
      · rw [processRecord_loop_raised env base rec q qs ds k hd hresp hcase]
        have hallb : (q :: qs).all (fun p => (env.photoResp (imgUrlOf p)).isOk) = false := by
          cases hab : (q :: qs).all (fun p => (env.photoResp (imgUrlOf p)).isOk)
          · rfl
          · exact absurd (List.all_eq_true.mp hab) hall
        rw [hallb]
        rw [countSleep_cons, countSleep_cons, countSleep_append,
          countSleep_eq_zero_of_not_mem _ (photoLoop_no_sleep env _ _ (q :: qs) 1)]
        obtain ⟨m, hm⟩ := handlerLog_is_log rec.url k
        simp [isSleep, countSleep, List.filter_cons, hm]

/-- Witness for C3's amended theorem: observation 77 with both photos
succeeding gets its single sleep, by the reached-loop clause. -/
theorem delay_runs_iff_photo_loop_completes_witness :
    countSleep (processRecord envAllOk "base" recObs77) =
      (if (photoSq1 :: [photoSq2]).all
          (fun p => (envAllOk.photoResp (imgUrlOf p)).isOk) then 1 else 0) :=
  delay_runs_iff_photo_loop_completes.2.2.2.2 envAllOk "base" recObs77 photoSq1
    [photoSq2] [] (by decide) (by decide)

/-- C4 counterexample: two distinct records whose URLs end in the same
observation id 7 and share a species name write the very same path twice —
the second write overwrites the first, contradicting "no two distinct
records overwrite each other's files". -/
theorem distinct_records_overwrite_counterexample :
    recDupA ≠ recDupB ∧
    writePaths (recordsEvents envTwoIds "base" [recDupA, recDupB]) =
      [["base", "X", "7_1.jpg"], ["base", "X", "7_1.jpg"]] := by
  decide

/-- C4 amended: every file the downloader writes lives at
`base_output_dir/<SpeciesFolder>/<id>_<index>.jpg` for some record of the
run; and two records whose URLs yield distinct observation ids never write
the same path, because each filename embeds the all-digits id.  (Distinct
records sharing an observation id can overwrite each other, as the
counterexample shows.) -/
theorem writes_under_species_folder_distinct_ids :
    (∀ (env : Env) (base : String) (recs : List ObservationRecord)
        (path : List String) (c : String),
        Event.write path c ∈ download_inaturalist_photos_api env recs base →
        ∃ rec j, rec ∈ recs ∧ 1 ≤ j ∧
          path = [base, speciesFolderName rec,
            photoFilename (lastSegment rec.url) j]) ∧
    (∀ (env : Env) (base : String) (rec1 rec2 : ObservationRecord)
        (p1 : List String) (c1 : String) (p2 : List String) (c2 : String),
        Event.write p1 c1 ∈ processRecord env base rec1 →
        Event.write p2 c2 ∈ processRecord env base rec2 →
        lastSegment rec1.url ≠ lastSegment rec2.url →
        p1 ≠ p2) := by
  constructor
  · intro env base recs path c h
    unfold download_inaturalist_photos_api at h
    by_cases hr : recs = []
    · rw [if_pos hr] at h; simp at h
    · rw [if_neg hr] at h
      simp only [List.mem_append, List.mem_cons] at h
      rcases h with (h | h) | h
      · exact absurd h (by simp)
      · unfold recordsEvents at h
        rw [List.mem_flatMap] at h
        obtain ⟨rec, hrec, hw⟩ := h
        obtain ⟨_, ⟨j, hj, hpath⟩, _⟩ := processRecord_write_mem env base rec path c hw
        exact ⟨rec, j, hrec, hj, hpath⟩
      · exact absurd h (by simp)
  · intro env base rec1 rec2 p1 c1 p2 c2 h1 h2 hne heq
    obtain ⟨hd1, ⟨j1, _, hp1⟩, _⟩ := processRecord_write_mem env base rec1 p1 c1 h1
    obtain ⟨hd2, ⟨j2, _, hp2⟩, _⟩ := processRecord_write_mem env base rec2 p2 c2 h2
    rw [hp1, hp2] at heq
    have h3 : photoFilename (lastSegment rec1.url) j1 =
        photoFilename (lastSegment rec2.url) j2 := by
      have := congrArg (fun l => l.getD 2 "") heq
      simpa using this
    exact photoFilename_id_injective _ _ j1 j2 hd1 hd2 hne h3

/-- Witness for C4's amended theorem: the write of observation 7 lands
under a species folder of the run, and observations 7 and 8 write
different paths. -/
theorem writes_under_species_folder_distinct_ids_witness :
    (∃ rec j, rec ∈ [recDupA] ∧ 1 ≤ j ∧
        (["base", "X", "7_1.jpg"] : List String) =
          [("base" : String), speciesFolderName rec,
            photoFilename (lastSegment rec.url) j]) ∧
    (["base", "X", "7_1.jpg"] : List String) ≠ ["base", "Y", "8_1.jpg"] :=
  ⟨writes_under_species_folder_distinct_ids.1 envTwoIds "base" [recDupA]
      ["base", "X", "7_1.jpg"] "IMG" (by decide),
   writes_under_species_folder_distinct_ids.2 envTwoIds "base" recDupA recId8
      ["base", "X", "7_1.jpg"] "IMG" ["base", "Y", "8_1.jpg"] "IMG"
      (by decide) (by decide) (by decide)⟩
